import Mathlib

/-!
# Verification of the DM4 dataset normalizer (`dm4-dataset-core.js`)

Shallow embedding of the dataset normalization pipeline of the Dreadmarch
Campaign Manager: the synchronous normalizer `normalizeDatasetSync`, the
cache-backed entry point `normalizeDataset`, the worker-less fallback path of
`normalizeDatasetAsync`, and the cache key generator `generateCacheKey`.

JavaScript values are modeled by the inductive type `Value`: plain JSON-like
data (numbers as integers; floating point, `NaN` and `-0` are not modeled,
and no claim here depends on them). JavaScript objects are modeled as
association lists of string keys in insertion order; real JS objects have
unique keys, and property writes keep the original key position, which
`objSet` mirrors.
-/

namespace DM4

/-- A JavaScript runtime value, restricted to JSON-like data (no functions,
symbols, or reference cycles; acyclicity is a theorem of the inductive type). -/
inductive Value where
  | undefined : Value
  | null : Value
  | bool (b : Bool) : Value
  | num (n : Int) : Value
  | str (s : String) : Value
  | arr (elems : List Value) : Value
  | obj (fields : List (String × Value)) : Value

/-- JavaScript truthiness (`!!v`).  `undefined`, `null`, `false`, `0` and the
empty string are falsy; every array and object is truthy. -/
def truthy : Value → Bool
  | .undefined => false
  | .null => false
  | .bool b => b
  | .num n => n != 0
  | .str s => s != ""
  | .arr _ => true
  | .obj _ => true

/-- The guard `raw && typeof raw === "object"` from `normalizeDatasetSync`
line 98: it passes exactly the non-null values of object type, i.e. arrays
and objects (`typeof null` is `"object"` but `null` is falsy). -/
def isObjectLike : Value → Bool
  | .arr _ => true
  | .obj _ => true
  | _ => false

/-- First binding of key `k` in an association list (JS objects have unique
keys, so first match is the only match). -/
def getField? : List (String × Value) → String → Option Value
  | [], _ => none
  | (k', v) :: rest, k => if k' = k then some v else getField? rest k

/-- JavaScript property read `v[k]`: a missing key yields `undefined`, arrays
expose their elements under decimal-index keys, and property access on
primitives yields `undefined` (string character indexing is not modeled; no
dataset field read by the normalizer is a string). -/
def jsField (v : Value) (k : String) : Value :=
  match v with
  | .obj fs => (getField? fs k).getD .undefined
  | .arr es =>
    match k.toNat? with
    | some n => (es.get? n).getD .undefined
    | none => .undefined
  | _ => .undefined

/-- `Object.entries(v)`: the own enumerable string-keyed entries in insertion
order.  Primitives (including `null`-guarded cases in the source) have none. -/
def jsEntries : Value → List (String × Value)
  | .obj fs => fs
  | .arr es => es.enum.map (fun p => (toString p.1, p.2))
  | _ => []

/-- JavaScript `a || b`. -/
def jsOr (a b : Value) : Value := if truthy a then a else b

/-- JavaScript property write `o[k] = v` on an object modeled as an entry
list: an existing key keeps its position and gets the new value, a new key is
appended. -/
def objSet : List (String × Value) → String → Value → List (String × Value)
  | [], k, v => [(k, v)]
  | (k', v') :: rest, k, v =>
    if k' = k then (k', v) :: rest else (k', v') :: objSet rest k v

/-- `Object.assign({}, base, ov)` where `base` is given by its entry list:
the copy of `base` (unique-keyed in real JS, so the entry list itself) with
every entry of `ov` written over it in order. -/
def objAssign (base ov : List (String × Value)) : List (String × Value) :=
  ov.foldl (fun acc kv => objSet acc kv.1 kv.2) base

/-- `k in o`: whether the object value `v` has own key `k`. -/
def hasOwnField (v : Value) (k : String) : Bool :=
  (jsEntries v).any (fun kv => kv.1 = k)

mutual

/-- JavaScript string coercion of a value used as a computed property key
(`sectorBySystem[sysId]`): strings stay themselves, numbers and booleans
print, `null`/`undefined` print their names, arrays join their elements with
commas (`Array.prototype.toString`), plain objects print `[object Object]`. -/
def jsToPropKey : Value → String
  | .undefined => "undefined"
  | .null => "null"
  | .bool b => cond b "true" "false"
  | .num n => toString n
  | .str s => s
  | .arr es => joinArrayElems es
  | .obj _ => "[object Object]"

/-- `Array.prototype.join(",")` over the stringified elements. -/
def joinArrayElems : List Value → String
  | [] => ""
  | [e] => jsArrayElemKey e
  | e :: rest => jsArrayElemKey e ++ "," ++ joinArrayElems rest

/-- Element stringification inside `Array.prototype.join`: `null` and
`undefined` become the empty string, everything else coerces as usual. -/
def jsArrayElemKey : Value → String
  | .undefined => ""
  | .null => ""
  | .bool b => cond b "true" "false"
  | .num n => toString n
  | .str s => s
  | .arr es => joinArrayElems es
  | .obj _ => "[object Object]"

end

/-- Lookup in the string-valued reverse index `sectorBySystem`. -/
def strMapGet : List (String × String) → String → Option String
  | [], _ => none
  | (k', v) :: rest, k => if k' = k then some v else strMapGet rest k

/-- Property write on the string-valued reverse index `sectorBySystem`
(same overwrite-in-place semantics as `objSet`). -/
def strMapSet : List (String × String) → String → String → List (String × String)
  | [], k, v => [(k, v)]
  | (k', v') :: rest, k, v =>
    if k' = k then (k', v) :: rest else (k', v') :: strMapSet rest k v

/-- The loop body of `dm4-dataset-core.js` lines 114-120 over one
`Object.entries(sectorsSrc)` entry `(sectorName, systemList)`:
`(systemList || []).forEach(sysId => sectorBySystem[sysId] = sectorName)`.
Calling `.forEach` on a truthy non-array raises a `TypeError` that no
enclosing handler catches, which the `Except` error tracks. -/
def buildSectorBySystemAux :
    List (String × Value) → List (String × String) →
    Except String (List (String × String))
  | [], m => .ok m
  | (sectorName, systemList) :: rest, m =>
    match jsOr systemList (.arr []) with
    | .arr sysIds =>
      buildSectorBySystemAux rest
        (sysIds.foldl (fun acc sysId => strMapSet acc (jsToPropKey sysId) sectorName) m)
    | _ => .error "TypeError: systemList.forEach is not a function"

/-- Reverse lookup `systemId -> sectorName` built from `Object.entries` of
the `sectors` source (`dm4-dataset-core.js` lines 112-120). -/
def buildSectorBySystem (entries : List (String × Value)) :
    Except String (List (String × String)) :=
  buildSectorBySystemAux entries []

/-- `Array.isArray(coords) && coords.length >= 2`, the condition passed to
`DM4.Logger.validate` at lines 138-143. -/
def validCoordsFormat : Value → Bool
  | .arr es => decide (2 ≤ es.length)
  | _ => false

/-- The value of `sectorBySystem[id]` as a JS value: the stored sector name,
or `undefined` when the id is not in the index. -/
def sectorIndexValue (m : List (String × String)) (id : String) : Value :=
  match strMapGet m id with
  | some s => .str s
  | none => .undefined

/-- The body of the per-system `try` block (`dm4-dataset-core.js` lines
129-159) for one `Object.entries(systemsSrc)` entry `(id, sys)`.  Returns the
merged system object together with the diagnostics emitted through
`DM4.Logger.validate` (the logger is modeled as present, as in the shipped
page and the test setup).  Each of coords/grid/sector falls back to its side
table only when the own value is falsy (`!coords`, `!grid`, `!sector`) and
the side-table value is truthy. -/
def normalizeSystem (pixelsSrc gridSrc : Value) (sectorBySystem : List (String × String))
    (id : String) (sysv : Value) : Value × List String :=
  let base := jsOr sysv (.obj [])
  let coords0 := jsField base "coords"
  let coords :=
    if !truthy coords0 && truthy pixelsSrc && truthy (jsField pixelsSrc id) then
      jsField pixelsSrc id
    else coords0
  let vdiags :=
    if truthy coords && !validCoordsFormat coords then
      ["Validation failed: System " ++ id ++ " has invalid coords format"]
    else []
  let grid0 := jsField base "grid"
  let grid :=
    if !truthy grid0 && truthy gridSrc && truthy (jsField gridSrc id) then
      jsField gridSrc id
    else grid0
  let sector0 := jsField base "sector"
  let sectorSide := sectorIndexValue sectorBySystem id
  let sector :=
    if !truthy sector0 && truthy sectorSide then sectorSide else sector0
  (.obj (objAssign (jsEntries base)
      [("coords", coords), ("grid", grid), ("sector", sector)]), vdiags)

/-- Accumulated state of the `Object.entries(systemsSrc).forEach` loop:
the `normalizedSystems` object, the `errors` array (as `(systemId, message)`
pairs), and the warning messages handed to the logger. -/
structure NormState where
  normalized : List (String × Value)
  errors : List (String × String)
  diags : List String

/-- The `forEach` loop of `dm4-dataset-core.js` lines 125-167.  Plain data
(the `Value` type) can never make the `try` body throw - the possibility of a
thrown merge (e.g. a throwing getter on an exotic record) is modeled by the
`oracle` parameter, which returns the thrown message for the entries on which
the JS body would throw.  A failing entry is recorded in `errors` and skipped
(`normalizedSystems[id]` is never assigned); processing continues. -/
def processSystems (oracle : String → Value → Option String)
    (pixelsSrc gridSrc : Value) (sectorBySystem : List (String × String)) :
    List (String × Value) → NormState → NormState
  | [], st => st
  | (id, sysv) :: rest, st =>
    match oracle id sysv with
    | some msg =>
      processSystems oracle pixelsSrc gridSrc sectorBySystem rest
        { st with
          errors := st.errors ++ [(id, msg)]
          diags := st.diags ++ ["Failed to normalize system " ++ id ++ ": " ++ msg] }
    | none =>
      let merged := normalizeSystem pixelsSrc gridSrc sectorBySystem id sysv
      processSystems oracle pixelsSrc gridSrc sectorBySystem rest
        { st with
          normalized := objSet st.normalized id merged.1
          diags := st.diags ++ merged.2 }

/-- The `errors` array as the JS value stored in `_normalizationErrors`:
`[{ systemId: id, error: message }, ...]` (line 162). -/
def errorsValue (errors : List (String × String)) : Value :=
  .arr (errors.map (fun e => .obj [("systemId", .str e.1), ("error", .str e.2)]))

/-- Warning emitted on the invalid-input guard (line 100). -/
def warnInvalidRaw : String := "normalizeDataset: empty or invalid raw dataset"

/-- `var systemsSrc = raw.systems || {}` (line 107). -/
def systemsSrcOf (raw : Value) : Value := jsOr (jsField raw "systems") (.obj [])

/-- `var pixelsSrc = raw.system_pixels || raw.endpoint_pixels || {}` (line
108), resolved once for the whole call. -/
def pixelsSrcOf (raw : Value) : Value :=
  jsOr (jsField raw "system_pixels") (jsOr (jsField raw "endpoint_pixels") (.obj []))

/-- `var gridSrc = raw.system_grid || {}` (line 109). -/
def gridSrcOf (raw : Value) : Value := jsOr (jsField raw "system_grid") (.obj [])

/-- `var sectorsSrc = raw.sectors || {}` (line 110). -/
def sectorsSrcOf (raw : Value) : Value := jsOr (jsField raw "sectors") (.obj [])

/-- `normalizeDatasetSync` (`dm4-dataset-core.js` lines 97-180) with the
per-system throw oracle made explicit; the result pairs the returned dataset
with the warning messages handed to `DM4.Logger` (modeled as present).
A `TypeError` escaping the sectors loop is the only uncaught failure. -/
def normalizeDatasetSyncWith (oracle : String → Value → Option String)
    (raw : Value) : Except String (Value × List String) :=
  if isObjectLike raw then
    let systemsSrc := systemsSrcOf raw
    let pixelsSrc := pixelsSrcOf raw
    let gridSrc := gridSrcOf raw
    let sectorsSrc := sectorsSrcOf raw
    match buildSectorBySystem (jsEntries sectorsSrc) with
    | .error e => .error e
    | .ok sectorBySystem =>
      let st := processSystems oracle pixelsSrc gridSrc sectorBySystem
        (jsEntries systemsSrc) ⟨[], [], []⟩
      let result0 := objAssign (jsEntries raw) [("systems", .obj st.normalized)]
      if st.errors.isEmpty then
        .ok (.obj result0, st.diags)
      else
        .ok (.obj (objSet result0 "_normalizationErrors" (errorsValue st.errors)),
          st.diags ++ ["Normalization completed with errors"])
  else
    .ok (.obj [("systems", .obj [])], [warnInvalidRaw])

/-- The oracle for plain data: the `try` body never throws on `Value`s. -/
def noThrow : String → Value → Option String := fun _ _ => none

/-- `normalizeDatasetSync` on plain data. -/
def normalizeDatasetSync (raw : Value) : Except String (Value × List String) :=
  normalizeDatasetSyncWith noThrow raw

/-- JSON string escaping for `JSON.stringify` (quote, backslash and the
common control characters; other characters pass through). -/
def jsonEscapeChar (c : Char) : String :=
  if c = '"' then "\\\""
  else if c = '\\' then "\\\\"
  else if c = '\n' then "\\n"
  else if c = '\t' then "\\t"
  else if c = '\r' then "\\r"
  else String.singleton c

/-- A JSON string literal for `s`. -/
def jsonQuote (s : String) : String :=
  "\"" ++ String.join (s.toList.map jsonEscapeChar) ++ "\""

mutual

/-- `JSON.stringify` on the modeled values.  `undefined` (and in real JS a
function or symbol) has no JSON representation: at the top level the call
returns `undefined`, modeled as `none`; inside an object the key is dropped;
inside an array the element serializes as `null`.  Values of the inductive
type `Value` are acyclic, so the `TypeError` branch of `generateCacheKey`
(circular input) is unreachable in the model. -/
def jsStringify : Value → Option String
  | .undefined => none
  | .null => some "null"
  | .bool b => some (cond b "true" "false")
  | .num n => some (toString n)
  | .str s => some (jsonQuote s)
  | .arr es => some ("[" ++ jsStringifyElems es ++ "]")
  | .obj fs => some ("\x7b" ++ jsStringifyFields fs ++ "\x7d")

/-- Array elements, comma-separated; `undefined` elements print as `null`. -/
def jsStringifyElems : List Value → String
  | [] => ""
  | [e] => (jsStringify e).getD "null"
  | e :: rest => (jsStringify e).getD "null" ++ "," ++ jsStringifyElems rest

/-- Object entries, comma-separated; entries without a JSON representation
are dropped. -/
def jsStringifyFields : List (String × Value) → String
  | [] => ""
  | (k, v) :: rest =>
    match jsStringify v with
    | some sv =>
      let entry := jsonQuote k ++ ":" ++ sv
      let restStr := jsStringifyFields rest
      if restStr = "" then entry else entry ++ "," ++ restStr
    | none => jsStringifyFields rest

end

/-- `generateCacheKey` (`dm4-dataset-core.js` lines 34-43): the full
`JSON.stringify` of the raw dataset, for every input size; `none` models the
`null` return (stringify yielded no string, or - unreachable on acyclic
`Value`s - threw). -/
def generateCacheKey (raw : Value) : Option String :=
  jsStringify raw

/-- The module-level `normalizationCache`, a `Map` from cache keys to
normalized datasets.  `Map.set` updates in place or appends, `Map.get`
returns the stored entry. -/
abbrev Cache := List (String × Value)

/-- `normalizationCache.get` / `has`. -/
def cacheGet : Cache → String → Option Value
  | [], _ => none
  | (k', v) :: rest, k => if k' = k then some v else cacheGet rest k

/-- `normalizationCache.set`. -/
def cacheSet : Cache → String → Value → Cache
  | [], k, v => [(k, v)]
  | (k', v') :: rest, k, v =>
    if k' = k then (k', v) :: rest else (k', v') :: cacheSet rest k v

/-- `normalizeDataset` in synchronous mode (`dm4-dataset-core.js` lines
261-282), as a function of the raw dataset and the current cache: compute the
key; on a hit return the stored instance unchanged; otherwise run
`normalizeDatasetSync`, store the result under the key (when there is one)
and return it.  An uncaught `TypeError` from the sync path propagates.
Warning diagnostics are delivered to the external sink and are not part of
the returned dataset, so they are dropped at this level. -/
def normalizeDataset (raw : Value) (cache : Cache) : Except String (Value × Cache) :=
  match generateCacheKey raw with
  | some key =>
    match cacheGet cache key with
    | some cached => .ok (cached, cache)
    | none =>
      match normalizeDatasetSync raw with
      | .ok rd => .ok (rd.1, cacheSet cache key rd.1)
      | .error e => .error e
  | none =>
    match normalizeDatasetSync raw with
    | .ok rd => .ok (rd.1, cache)
    | .error e => .error e

/-- `normalizeDatasetAsync` (`dm4-dataset-core.js` lines 185-217) in an
environment without `Worker` support: `initWorker` returns immediately
(`typeof Worker === 'undefined'`), so the promise settles on the fallback
path - cache check first, then synchronous normalization, cache insertion
under the same key, and `resolve`; a thrown sync failure becomes a
`reject`, modeled by the `Except` error. -/
def normalizeDatasetAsync (raw : Value) (cache : Cache) : Except String (Value × Cache) :=
  match generateCacheKey raw with
  | some key =>
    match cacheGet cache key with
    | some cached => .ok (cached, cache)
    | none =>
      match normalizeDatasetSync raw with
      | .ok rd => .ok (rd.1, cacheSet cache key rd.1)
      | .error e => .error e
  | none =>
    match normalizeDatasetSync raw with
    | .ok rd => .ok (rd.1, cache)
    | .error e => .error e

/-!
## Heap model

The frame properties of `normalizeDatasetSync` (no mutation of the input, a
freshly allocated result) are about object identity, which the pure value
model cannot express.  This section re-embeds the same source lines over an
explicit heap: `HVal` is a primitive or a reference, `Heap` is the store of
allocated cells, addresses are indices, and `new`-ing an object appends a
cell.  The code path embedded is the oracle-free one (plain data, no
per-entity throw); the `validate` diagnostics, which touch no object, are
omitted here.  The unobservable empty-object allocations produced by the
`|| {}` defaults are modeled as absent entry lists, and string primitives are
modeled without own properties, as in the value model.
-/

/-- A JavaScript value in the heap model: a primitive or a reference. -/
inductive HVal where
  | undefined : HVal
  | null : HVal
  | bool (b : Bool) : HVal
  | num (n : Int) : HVal
  | str (s : String) : HVal
  | ref (a : Nat) : HVal
deriving DecidableEq, Repr

/-- A heap cell: a plain object (entry list) or an array. -/
inductive HCell where
  | objc (fields : List (String × HVal)) : HCell
  | arrc (elems : List HVal) : HCell
deriving DecidableEq, Repr

/-- The heap: cell at address `a` is entry `a` of the list; allocation
appends. -/
abbrev Heap := List HCell

/-- The cell at an address (reads of unallocated addresses never occur on the
embedded path; the default is an empty object). -/
def getCell (h : Heap) (a : Nat) : HCell := h.getD a (.objc [])

/-- Allocate a cell, returning the new heap and the fresh address. -/
def hAlloc (h : Heap) (c : HCell) : Heap × Nat := (h ++ [c], h.length)

/-- Truthiness of a heap value; references (all objects) are truthy. -/
def hTruthy : HVal → Bool
  | .undefined => false
  | .null => false
  | .bool b => b
  | .num n => n != 0
  | .str s => s != ""
  | .ref _ => true

/-- `Object.entries` of a cell: object fields, or array elements under their
decimal indices. -/
def cellEntries : HCell → List (String × HVal)
  | .objc fs => fs
  | .arrc es => es.enum.map (fun p => (toString p.1, p.2))

/-- First binding of `k` in a heap-object entry list, `undefined` if absent. -/
def hFieldOf : List (String × HVal) → String → HVal
  | [], _ => .undefined
  | (k', v) :: rest, k => if k' = k then v else hFieldOf rest k

/-- Property read `v[k]` through the heap. -/
def hGetField (h : Heap) (v : HVal) (k : String) : HVal :=
  match v with
  | .ref a => hFieldOf (cellEntries (getCell h a)) k
  | _ => .undefined

/-- Property write on an entry list (same semantics as `objSet`). -/
def hobjSet : List (String × HVal) → String → HVal → List (String × HVal)
  | [], k, v => [(k, v)]
  | (k', v') :: rest, k, v =>
    if k' = k then (k', v) :: rest else (k', v') :: hobjSet rest k v

/-- Property write on a cell (only ever applied to object cells the embedded
code allocated itself). -/
def cellSet : HCell → String → HVal → HCell
  | .objc fs, k, v => .objc (hobjSet fs k v)
  | .arrc es, _, _ => .arrc es

/-- In-place property write `heap[a][k] = v`. -/
def hSetField (h : Heap) (a : Nat) (k : String) (v : HVal) : Heap :=
  h.set a (cellSet (getCell h a) k v)

/-- `Object.assign({}, base, ov)` on entry lists (shallow: values, including
references, are copied as they are). -/
def hobjAssign (base ov : List (String × HVal)) : List (String × HVal) :=
  ov.foldl (fun acc kv => hobjSet acc kv.1 kv.2) base

/-- String coercion of a heap value used as a computed property key.  A
reference prints `[object Object]`; the element-joining of array references
is not modeled here (the frame theorem does not depend on key texts). -/
def hPropKey : HVal → String
  | .undefined => "undefined"
  | .null => "null"
  | .bool b => cond b "true" "false"
  | .num n => toString n
  | .str s => s
  | .ref _ => "[object Object]"

/-- Entries of a source value: dereference if it is a reference, otherwise
none (`Object.entries` of a primitive; the falsy case is guarded by `|| {}`
in the source, whose fresh empty object also has no entries). -/
def hEntriesOfVal (h : Heap) (v : HVal) : List (String × HVal) :=
  match v with
  | .ref a => cellEntries (getCell h a)
  | _ => []

/-- Heap version of the sectors loop (lines 112-120): mutates the fresh
`sectorBySystem` object at `secAddr`; a truthy non-array `systemList` raises
the uncaught `TypeError`. -/
def buildSectorIndexHeap (secAddr : Nat) :
    List (String × HVal) → Heap → Except String Heap
  | [], h => .ok h
  | (sectorName, systemList) :: rest, h =>
    if hTruthy systemList then
      match systemList with
      | .ref a =>
        match getCell h a with
        | .arrc sysIds =>
          buildSectorIndexHeap secAddr rest
            (sysIds.foldl
              (fun hh sysId => hSetField hh secAddr (hPropKey sysId) (.str sectorName)) h)
        | .objc _ => .error "TypeError: systemList.forEach is not a function"
      | _ => .error "TypeError: systemList.forEach is not a function"
    else
      buildSectorIndexHeap secAddr rest h

/-- Heap version of the per-system loop (lines 125-167, oracle-free): for
each entry allocate the merged object (`Object.assign({}, base, ...)`) and
write the reference into the `normalizedSystems` object at `nsAddr`. -/
def processSystemsHeap (secAddr nsAddr : Nat) (pixelsV gridV : HVal) :
    List (String × HVal) → Heap → Heap
  | [], h => h
  | (id, sysv) :: rest, h =>
    let baseEntries := if hTruthy sysv then hEntriesOfVal h sysv else []
    let coords0 := hFieldOf baseEntries "coords"
    let coords :=
      if !hTruthy coords0 && hTruthy (hGetField h pixelsV id) then
        hGetField h pixelsV id
      else coords0
    let grid0 := hFieldOf baseEntries "grid"
    let grid :=
      if !hTruthy grid0 && hTruthy (hGetField h gridV id) then
        hGetField h gridV id
      else grid0
    let sector0 := hFieldOf baseEntries "sector"
    let sectorSide := hGetField h (.ref secAddr) id
    let sector :=
      if !hTruthy sector0 && hTruthy sectorSide then sectorSide else sector0
    let merged := hobjAssign baseEntries
      [("coords", coords), ("grid", grid), ("sector", sector)]
    let h1na := hAlloc h (.objc merged)
    let h2 := hSetField h1na.1 nsAddr id (.ref h1na.2)
    processSystemsHeap secAddr nsAddr pixelsV gridV rest h2

/-- Heap version of `normalizeDatasetSync` (lines 97-180, oracle-free).  The
guard branch allocates the fresh `{ systems: {} }`; the main branch allocates
`sectorBySystem`, fills it, allocates `normalizedSystems`, runs the system
loop, and allocates the result via `Object.assign({}, raw, {systems})`,
reading the raw object's entries from the final heap. -/
def normalizeSyncHeap (h : Heap) (raw : HVal) : Except String (Heap × HVal) :=
  match raw with
  | .ref a =>
    let rawEntries := cellEntries (getCell h a)
    let pixelsV :=
      let p := hFieldOf rawEntries "system_pixels"
      if hTruthy p then p else hFieldOf rawEntries "endpoint_pixels"
    let gridV := hFieldOf rawEntries "system_grid"
    let sectorsV := hFieldOf rawEntries "sectors"
    let systemsV := hFieldOf rawEntries "systems"
    let h1sec := hAlloc h (.objc [])
    let sectorsEntries :=
      if hTruthy sectorsV then hEntriesOfVal h1sec.1 sectorsV else []
    match buildSectorIndexHeap h1sec.2 sectorsEntries h1sec.1 with
    | .error e => .error e
    | .ok h2 =>
      let h3ns := hAlloc h2 (.objc [])
      let sysEntries :=
        if hTruthy systemsV then hEntriesOfVal h3ns.1 systemsV else []
      let h4 := processSystemsHeap h1sec.2 h3ns.2 pixelsV gridV sysEntries h3ns.1
      let resFields := hobjAssign (cellEntries (getCell h4 a))
        [("systems", .ref h3ns.2)]
      let h5ra := hAlloc h4 (.objc resFields)
      .ok (h5ra.1, .ref h5ra.2)
  | _ =>
    let h1sa := hAlloc h (.objc [])
    let h2ra := hAlloc h1sa.1 (.objc [("systems", .ref h1sa.2)])
    .ok (h2ra.1, .ref h2ra.2)

/-!
## Characterization vocabulary and concrete inputs

Definitions used only to state properties (field resolution order, the
recorded error list, sector-list membership), plus the concrete datasets the
counterexamples and witnesses evaluate the embedded code on.
-/

/-- Truthy-first resolution: the own value when truthy, else the side-table
value when truthy, else the (falsy) own value. -/
def resolveTruthy (own side : Value) : Value :=
  if truthy own then own else if truthy side then side else own

/-- Whether the sectors-table entry value `v` is a list containing `id`
(after the `|| []` default and JS property-key coercion). -/
def sectorListContains (v : Value) (id : String) : Bool :=
  match jsOr v (.arr []) with
  | .arr es => es.any (fun e => jsToPropKey e = id)
  | _ => false

/-- The `(systemId, message)` pairs the `catch` block records, in entry
order: one pair per system entry on which the merge throws. -/
def errList (oracle : String → Value → Option String) (raw : Value) :
    List (String × String) :=
  (jsEntries (systemsSrcOf raw)).filterMap
    (fun p => (oracle p.1 p.2).map (fun m => (p.1, m)))

/-- A system whose own record carries `sector: ""` (present but falsy) while
the side table assigns it to sector `core`. -/
def ownEmptySectorRaw : Value := .obj [
  ("systems", .obj [("x", .obj [("sector", .str "")])]),
  ("sectors", .obj [("core", .arr [.str "x"])])]

/-- A system with no resolvable coords/grid/sector anywhere. -/
def bareSystemRaw : Value := .obj [("systems", .obj [("x", .obj [("name", .str "X")])])]

/-- The spec's base-wins example: own `coords: [1,1]`, side table `[9,9]`. -/
def baseWinsRaw : Value := .obj [
  ("systems", .obj [("sol", .obj [("name", .str "Sol"),
    ("coords", .arr [.num 1, .num 1])])]),
  ("system_pixels", .obj [("sol", .arr [.num 9, .num 9])])]

/-- The spec's two-system example `systems = {A:{}, B:{}}`. -/
def abRaw : Value := .obj [("systems", .obj [("A", .obj []), ("B", .obj [])])]

/-- `n` systems named `s0 .. s(n-1)` with empty records. -/
def mkSystems (n : Nat) : List (String × Value) :=
  (List.range n).map (fun i => ("s" ++ toString i, .obj []))

/-- A 100-system dataset (at the claimed fingerprint threshold) with
`system_pixels` populated. -/
def bigRawA : Value := .obj [
  ("systems", .obj (mkSystems 100)),
  ("system_pixels", .obj [("s0", .arr [.num 1, .num 2])])]

/-- The same dataset with system `s99` (outside any first-10 id sample)
renamed: same system count, same id list, same pixel-source field. -/
def bigRawB : Value := .obj [
  ("systems", .obj (objSet (mkSystems 100) "s99" (.obj [("name", .str "renamed")]))),
  ("system_pixels", .obj [("s0", .arr [.num 1, .num 2])])]

/-- An oracle making the merge of system `bad` throw with message `boom`. -/
def failOnBad : String → Value → Option String :=
  fun id _ => if id = "bad" then some "boom" else none

/-- Two systems, one of which (`bad`) fails per-entity processing under
`failOnBad`. -/
def twoSystemsRaw : Value := .obj [
  ("systems", .obj [("good", .obj [("name", .str "G")]), ("bad", .obj [])])]

/-- Sector tables in which id `x` appears in two sector lists. -/
def dupSectors : List (String × Value) :=
  [("alpha", .arr [.str "x", .str "y"]), ("beta", .arr [.str "x"])]

/-- The reverse index built from `dupSectors`. -/
def dupSectorsIdx : List (String × String) :=
  match buildSectorBySystem dupSectors with
  | .ok m => m
  | .error _ => []

/-- The normalized dataset of `baseWinsRaw` (extraction of the `.ok` payload,
for stating concrete runs by `rfl`). -/
def baseWinsOut : Value :=
  match normalizeDatasetSync baseWinsRaw with
  | .ok p => p.1
  | .error _ => .undefined

/-- The diagnostics of the `baseWinsRaw` run. -/
def baseWinsDiags : List String :=
  match normalizeDatasetSync baseWinsRaw with
  | .ok p => p.2
  | .error _ => []

/-- The normalized dataset of `bareSystemRaw`. -/
def bareOut : Value :=
  match normalizeDatasetSync bareSystemRaw with
  | .ok p => p.1
  | .error _ => .undefined

/-- The normalized dataset of `abRaw`. -/
def abOut : Value :=
  match normalizeDatasetSync abRaw with
  | .ok p => p.1
  | .error _ => .undefined

/-- The diagnostics of the `abRaw` run. -/
def abDiags : List String :=
  match normalizeDatasetSync abRaw with
  | .ok p => p.2
  | .error _ => []

/-- The result of `normalizeDatasetSyncWith failOnBad twoSystemsRaw`. -/
def twoOut : Value :=
  match normalizeDatasetSyncWith failOnBad twoSystemsRaw with
  | .ok p => p.1
  | .error _ => .undefined

/-- The diagnostics of the `twoSystemsRaw` run under `failOnBad`. -/
def twoDiags : List String :=
  match normalizeDatasetSyncWith failOnBad twoSystemsRaw with
  | .ok p => p.2
  | .error _ => []

/-- First cache-backed run: `normalizeDataset(baseWinsRaw)` on the empty
cache. -/
def cacheRun : Except String (Value × Cache) := normalizeDataset baseWinsRaw []

/-- The dataset returned by `cacheRun`. -/
def cacheRunVal : Value :=
  match cacheRun with
  | .ok p => p.1
  | .error _ => .undefined

/-- The cache state after `cacheRun`. -/
def cacheRunCache : Cache :=
  match cacheRun with
  | .ok p => p.2
  | .error _ => []

/-- The result of the `ownEmptySectorRaw` run. -/
def ownEmptySectorOut : Value :=
  match normalizeDatasetSync ownEmptySectorRaw with
  | .ok p => p.1
  | .error _ => .undefined

/-- A concrete two-object heap: the raw dataset at address 0 with its
`systems` table at address 1 and one system record at address 2. -/
def frameExampleHeap : Heap := [
  .objc [("systems", .ref 1)],
  .objc [("x", .ref 2)],
  .objc [("name", .str "X")]]

/-- The heap-model run on `frameExampleHeap`. -/
def frameExampleRun : Except String (Heap × HVal) :=
  normalizeSyncHeap frameExampleHeap (.ref 0)

/-- The heap after the `frameExampleHeap` run. -/
def frameExampleOut : Heap :=
  match frameExampleRun with
  | .ok p => p.1
  | .error _ => []

/-- The result value of the `frameExampleHeap` run. -/
def frameExampleRes : HVal :=
  match frameExampleRun with
  | .ok p => p.2
  | .error _ => .undefined

/-!
## Map and object lemmas
-/

theorem getField?_objSet_self (fs : List (String × Value)) (k : String) (v : Value) :
    getField? (objSet fs k v) k = some v := by
  induction fs with
  | nil => simp [objSet, getField?]
  | cons p rest ih =>
    obtain ⟨k', v'⟩ := p
    by_cases h : k' = k
    · simp [objSet, getField?, h]
    · simp [objSet, getField?, h, ih]

theorem getField?_objSet_ne (fs : List (String × Value)) (k k' : String) (v : Value)
    (hne : k' ≠ k) : getField? (objSet fs k v) k' = getField? fs k' := by
  induction fs with
  | nil => simp [objSet, getField?, Ne.symm hne]
  | cons p rest ih =>
    obtain ⟨a, b⟩ := p
    by_cases h : a = k
    · subst h
      simp [objSet, getField?, Ne.symm hne]
    · simp only [objSet, if_neg h]
      by_cases h2 : a = k'
      · simp [getField?, h2]
      · simp [getField?, h2, ih]

theorem mem_keys_objSet (fs : List (String × Value)) (k k' : String) (v : Value) :
    k' ∈ (objSet fs k v).map Prod.fst ↔ k' = k ∨ k' ∈ fs.map Prod.fst := by
  induction fs with
  | nil => simp [objSet]
  | cons p rest ih =>
    obtain ⟨a, b⟩ := p
    by_cases h : a = k
    · subst h
      simp [objSet, List.mem_cons]
    · simp only [objSet, if_neg h, List.map_cons, List.mem_cons, ih]
      tauto

theorem cacheGet_cacheSet_self (c : Cache) (k : String) (v : Value) :
    cacheGet (cacheSet c k v) k = some v := by
  induction c with
  | nil => simp [cacheSet, cacheGet]
  | cons p rest ih =>
    obtain ⟨k', v'⟩ := p
    by_cases h : k' = k
    · simp [cacheSet, cacheGet, h]
    · simp [cacheSet, cacheGet, h, ih]

theorem strMapGet_strMapSet_self (m : List (String × String)) (k v : String) :
    strMapGet (strMapSet m k v) k = some v := by
  induction m with
  | nil => simp [strMapSet, strMapGet]
  | cons p rest ih =>
    obtain ⟨a, b⟩ := p
    by_cases h : a = k
    · simp [strMapSet, strMapGet, h]
    · simp [strMapSet, strMapGet, h, ih]

theorem strMapGet_strMapSet_ne (m : List (String × String)) (k k' v : String)
    (hne : k' ≠ k) : strMapGet (strMapSet m k v) k' = strMapGet m k' := by
  induction m with
  | nil => simp [strMapSet, strMapGet, Ne.symm hne]
  | cons p rest ih =>
    obtain ⟨a, b⟩ := p
    by_cases h : a = k
    · subst h
      simp [strMapSet, strMapGet, Ne.symm hne]
    · simp only [strMapSet, if_neg h]
      by_cases h2 : a = k'
      · simp [strMapGet, h2]
      · simp [strMapGet, h2, ih]

theorem strMapGet_fold_set (es : List Value) (name : String)
    (m : List (String × String)) (id : String) :
    strMapGet (es.foldl (fun acc e => strMapSet acc (jsToPropKey e) name) m) id =
      if es.any (fun e => jsToPropKey e = id) then some name else strMapGet m id := by
  induction es generalizing m with
  | nil => simp
  | cons e rest ih =>
    simp only [List.foldl_cons, List.any_cons, ih]
    by_cases he : jsToPropKey e = id
    · simp [he, strMapGet_strMapSet_self]
    · simp [he, strMapGet_strMapSet_ne _ _ _ _ (Ne.symm he)]

theorem hasOwnField_obj (fs : List (String × Value)) (k : String) :
    hasOwnField (.obj fs) k = true ↔ k ∈ fs.map Prod.fst := by
  simp [hasOwnField, jsEntries, List.any_eq_true, List.mem_map]

theorem truthy_pixelsSrcOf (raw : Value) : truthy (pixelsSrcOf raw) = true := by
  unfold pixelsSrcOf jsOr
  split
  · next h => exact h
  · split
    · next h => exact h
    · rfl

theorem truthy_gridSrcOf (raw : Value) : truthy (gridSrcOf raw) = true := by
  unfold gridSrcOf jsOr
  split
  · next h => exact h
  · rfl

theorem jsEntries_jsOr_empty (v : Value) :
    jsEntries (jsOr v (.obj [])) = jsEntries v := by
  unfold jsOr
  split
  · rfl
  · next h =>
    cases v <;> simp_all [truthy, jsEntries]

theorem processSystems_errors (o : String → Value → Option String)
    (px gx : Value) (sec : List (String × String)) :
    ∀ (entries : List (String × Value)) (st : NormState),
      (processSystems o px gx sec entries st).errors =
        st.errors ++ entries.filterMap (fun p => (o p.1 p.2).map (fun m => (p.1, m))) := by
  intro entries
  induction entries with
  | nil => intro st; simp [processSystems]
  | cons p rest ih =>
    intro st
    obtain ⟨id, sysv⟩ := p
    cases ho : o id sysv with
    | some msg => simp [processSystems, ho, ih]
    | none => simp [processSystems, ho, ih]

theorem processSystems_mem_keys (o : String → Value → Option String)
    (px gx : Value) (sec : List (String × String)) :
    ∀ (entries : List (String × Value)) (st : NormState) (k : String),
      k ∈ (processSystems o px gx sec entries st).normalized.map Prod.fst ↔
        k ∈ st.normalized.map Prod.fst ∨
          ∃ p, p ∈ entries ∧ p.1 = k ∧ o p.1 p.2 = none := by
  intro entries
  induction entries with
  | nil => intro st k; simp [processSystems]
  | cons q rest ih =>
    intro st k
    obtain ⟨id, sysv⟩ := q
    cases ho : o id sysv with
    | some msg =>
      rw [processSystems, ho, ih]
      constructor
      · rintro (h | ⟨p, hp, hk, hn⟩)
        · exact Or.inl h
        · exact Or.inr ⟨p, List.mem_cons_of_mem _ hp, hk, hn⟩
      · rintro (h | ⟨p, hp, hk, hn⟩)
        · exact Or.inl h
        · rcases List.mem_cons.mp hp with he | hm
          · subst he
            simp [ho] at hn
          · exact Or.inr ⟨p, hm, hk, hn⟩
    | none =>
      rw [processSystems, ho, ih]
      simp only [mem_keys_objSet]
      constructor
      · rintro ((hk | h) | ⟨p, hp, hk, hn⟩)
        · exact Or.inr ⟨(id, sysv), List.mem_cons_self _ _, hk.symm, ho⟩
        · exact Or.inl h
        · exact Or.inr ⟨p, List.mem_cons_of_mem _ hp, hk, hn⟩
      · rintro (h | ⟨p, hp, hk, hn⟩)
        · exact Or.inl (Or.inr h)
        · rcases List.mem_cons.mp hp with he | hm
          · subst he
            exact Or.inl (Or.inl hk.symm)
          · exact Or.inr ⟨p, hm, hk, hn⟩

theorem processSystems_getField_not_mem (o : String → Value → Option String)
    (px gx : Value) (sec : List (String × String)) :
    ∀ (entries : List (String × Value)) (st : NormState) (id : String),
      id ∉ entries.map Prod.fst →
      getField? (processSystems o px gx sec entries st).normalized id =
        getField? st.normalized id := by
  intro entries
  induction entries with
  | nil => intro st id _; simp [processSystems]
  | cons q rest ih =>
    intro st id hid
    obtain ⟨a, bv⟩ := q
    simp only [List.map_cons, List.mem_cons, not_or] at hid
    obtain ⟨hne, hrest⟩ := hid
    cases ho : o a bv with
    | some msg =>
      simp only [processSystems, ho]
      exact ih _ _ hrest
    | none =>
      simp only [processSystems, ho]
      rw [ih _ _ hrest]
      exact getField?_objSet_ne _ _ _ _ hne

theorem processSystems_getField_mem (o : String → Value → Option String)
    (px gx : Value) (sec : List (String × String)) :
    ∀ (entries : List (String × Value)) (st : NormState) (id : String) (sysv : Value),
      (entries.map Prod.fst).Nodup → (id, sysv) ∈ entries → o id sysv = none →
      getField? (processSystems o px gx sec entries st).normalized id =
        some (normalizeSystem px gx sec id sysv).1 := by
  intro entries
  induction entries with
  | nil => intro st id sysv _ hmem _; cases hmem
  | cons q rest ih =>
    intro st id sysv hnd hmem horacle
    obtain ⟨a, bv⟩ := q
    simp only [List.map_cons, List.nodup_cons] at hnd
    obtain ⟨hanr, hndr⟩ := hnd
    rcases List.mem_cons.mp hmem with he | hm
    · cases he
      simp only [processSystems, horacle]
      rw [processSystems_getField_not_mem o px gx sec rest _ id hanr]
      exact getField?_objSet_self _ _ _
    · cases ho : o a bv with
      | some msg =>
        simp only [processSystems, ho]
        exact ih _ _ _ hndr hm horacle
      | none =>
        simp only [processSystems, ho]
        exact ih _ _ _ hndr hm horacle

theorem nodup_keys_eq {β : Type} :
    ∀ (l : List (String × β)), (l.map Prod.fst).Nodup →
      ∀ {a : String} {b c : β}, (a, b) ∈ l → (a, c) ∈ l → b = c := by
  intro l
  induction l with
  | nil => intro _ a b c hb _; cases hb
  | cons q rest ih =>
    intro hnd a b c hb hc
    obtain ⟨x, y⟩ := q
    simp only [List.map_cons, List.nodup_cons] at hnd
    obtain ⟨hxr, hndr⟩ := hnd
    rcases List.mem_cons.mp hb with hbe | hbm <;> rcases List.mem_cons.mp hc with hce | hcm
    · cases hbe; cases hce; rfl
    · cases hbe
      exact absurd (List.mem_map.mpr ⟨(a, c), hcm, rfl⟩) hxr
    · cases hce
      exact absurd (List.mem_map.mpr ⟨(a, b), hbm, rfl⟩) hxr
    · exact ih hndr hbm hcm

theorem syncWith_ok_inv (oracle : String → Value → Option String) (raw out : Value)
    (diags : List String)
    (hobj : isObjectLike raw = true)
    (hok : normalizeDatasetSyncWith oracle raw = .ok (out, diags)) :
    ∃ sectorBySystem,
      buildSectorBySystem (jsEntries (sectorsSrcOf raw)) = .ok sectorBySystem ∧
      out =
        (if (processSystems oracle (pixelsSrcOf raw) (gridSrcOf raw) sectorBySystem
              (jsEntries (systemsSrcOf raw)) ⟨[], [], []⟩).errors.isEmpty then
          Value.obj (objAssign (jsEntries raw)
            [("systems", .obj (processSystems oracle (pixelsSrcOf raw) (gridSrcOf raw)
                sectorBySystem (jsEntries (systemsSrcOf raw)) ⟨[], [], []⟩).normalized)])
        else
          Value.obj (objSet (objAssign (jsEntries raw)
            [("systems", .obj (processSystems oracle (pixelsSrcOf raw) (gridSrcOf raw)
                sectorBySystem (jsEntries (systemsSrcOf raw)) ⟨[], [], []⟩).normalized)])
            "_normalizationErrors"
            (errorsValue (processSystems oracle (pixelsSrcOf raw) (gridSrcOf raw)
                sectorBySystem (jsEntries (systemsSrcOf raw)) ⟨[], [], []⟩).errors))) := by
  simp only [normalizeDatasetSyncWith, hobj, if_true] at hok
  cases hsec : buildSectorBySystem (jsEntries (sectorsSrcOf raw)) with
  | error e =>
    simp only [hsec] at hok
    exact Except.noConfusion hok
  | ok sectorBySystem =>
    simp only [hsec] at hok
    refine ⟨sectorBySystem, rfl, ?_⟩
    by_cases he : (processSystems oracle (pixelsSrcOf raw) (gridSrcOf raw) sectorBySystem
        (jsEntries (systemsSrcOf raw)) ⟨[], [], []⟩).errors.isEmpty
    · rw [if_pos he]
      rw [if_pos he] at hok
      cases hok
      rfl
    · rw [if_neg he]
      rw [if_neg he] at hok
      cases hok
      rfl

/-!
## Claim theorems
-/

/-- C1: on every input that is `null`, `undefined`, or not of object type,
`normalizeDatasetSync` returns `{ systems: {} }` together with the
invalid-input diagnostic instead of throwing (the `.ok` constructor is the
non-throwing return), and in particular the cache-backed
`normalize(null)` on the empty cache returns `{ systems: {} }`. -/
theorem c1_nonobject_guard (v : Value) (h : isObjectLike v = false) :
    normalizeDatasetSync v = .ok (.obj [("systems", .obj [])], [warnInvalidRaw]) ∧
    normalizeDataset .null [] =
      .ok (.obj [("systems", .obj [])], [("null", .obj [("systems", .obj [])])]) := by
  constructor
  · simp [normalizeDatasetSync, normalizeDatasetSyncWith, h]
  · rfl

/-- Witness for C1 at the concrete input `null`. -/
theorem c1_witness :
    isObjectLike Value.null = false ∧
    normalizeDatasetSync .null = .ok (.obj [("systems", .obj [])], [warnInvalidRaw]) :=
  ⟨rfl, (c1_nonobject_guard .null rfl).1⟩

theorem objAssign_single (base : List (String × Value)) (k : String) (v : Value) :
    objAssign base [(k, v)] = objSet base k v := by
  simp [objAssign]

theorem jsField_result_systems (raw : Value) (ns : List (String × Value)) :
    jsField (.obj (objAssign (jsEntries raw) [("systems", .obj ns)])) "systems" =
      .obj ns := by
  simp [objAssign_single, jsField, getField?_objSet_self]

theorem hasOwnField_obj_false (fs : List (String × Value)) (k : String) :
    hasOwnField (.obj fs) k = false ↔ k ∉ fs.map Prod.fst := by
  rw [← hasOwnField_obj]
  cases h : hasOwnField (.obj fs) k <;> simp [h]

/-- C2: for every object input on which no per-entity failure occurs (plain
data cannot make the merge throw, so this is the oracle-free run), the key
set of the output `systems` map is exactly the key set of `raw.systems`; in
particular an id appearing only in `system_pixels`, `endpoint_pixels`,
`system_grid` or `sectors` is never materialized in the output. -/
theorem c2_key_set (raw : Value) (hobj : isObjectLike raw = true)
    (out : Value) (diags : List String)
    (hok : normalizeDatasetSync raw = .ok (out, diags)) (k : String) :
    (k ∈ (jsEntries (jsField out "systems")).map Prod.fst ↔
      k ∈ (jsEntries (jsField raw "systems")).map Prod.fst) := by
  rw [normalizeDatasetSync] at hok
  obtain ⟨sec, hsec, hout⟩ := syncWith_ok_inv noThrow raw out diags hobj hok
  have herr : (processSystems noThrow (pixelsSrcOf raw) (gridSrcOf raw) sec
      (jsEntries (systemsSrcOf raw)) ⟨[], [], []⟩).errors = [] := by
    rw [processSystems_errors]
    simp [noThrow]
  rw [herr] at hout
  simp only [List.isEmpty_nil, if_true] at hout
  subst hout
  rw [jsField_result_systems]
  have hent : jsEntries (systemsSrcOf raw) = jsEntries (jsField raw "systems") :=
    jsEntries_jsOr_empty (jsField raw "systems")
  rw [hent]
  simp only [jsEntries]
  rw [processSystems_mem_keys]
  simp only [noThrow, List.map_nil, List.not_mem_nil, false_or, List.mem_map]
  constructor
  · rintro ⟨p, hp, hk, -⟩
    exact ⟨p, hp, hk⟩
  · rintro ⟨p, hp, hk⟩
    exact ⟨p, hp, hk, trivial⟩

/-- Witness for C2 on the spec example `systems = {A:{}, B:{}}`. -/
theorem c2_witness :
    isObjectLike abRaw = true ∧
    normalizeDatasetSync abRaw = .ok (abOut, abDiags) ∧
    ("A" ∈ (jsEntries (jsField abOut "systems")).map Prod.fst ↔
      "A" ∈ (jsEntries (jsField abRaw "systems")).map Prod.fst) ∧
    (jsEntries (jsField abOut "systems")).map Prod.fst = ["A", "B"] :=
  ⟨rfl, rfl, c2_key_set abRaw rfl abOut abDiags rfl "A", rfl⟩

/-- C7: when the merge of one system throws (the oracle marks the throwing
entries and carries the thrown message), the failure is caught: the entry is
recorded as a `{systemId, error}` pair, in entry order, in the errors list;
the failed system is dropped entirely from the output `systems` map; every
non-failing system is still processed and present; and whenever any error
occurred the list is exposed on the result under `_normalizationErrors`. -/
theorem c7_error_isolation (oracle : String → Value → Option String)
    (raw out : Value) (diags : List String)
    (hobj : isObjectLike raw = true)
    (hok : normalizeDatasetSyncWith oracle raw = .ok (out, diags))
    (hnd : ((jsEntries (systemsSrcOf raw)).map Prod.fst).Nodup) :
    (∀ p ∈ jsEntries (systemsSrcOf raw), (oracle p.1 p.2).isSome = true →
        hasOwnField (jsField out "systems") p.1 = false) ∧
    (∀ p ∈ jsEntries (systemsSrcOf raw), oracle p.1 p.2 = none →
        hasOwnField (jsField out "systems") p.1 = true) ∧
    (errList oracle raw ≠ [] →
        jsField out "_normalizationErrors" = errorsValue (errList oracle raw)) := by
  obtain ⟨sec, hsec, hout⟩ := syncWith_ok_inv oracle raw out diags hobj hok
  have herr : (processSystems oracle (pixelsSrcOf raw) (gridSrcOf raw) sec
      (jsEntries (systemsSrcOf raw)) ⟨[], [], []⟩).errors = errList oracle raw := by
    rw [processSystems_errors]
    simp [errList]
  have hsys : jsField out "systems" =
      .obj (processSystems oracle (pixelsSrcOf raw) (gridSrcOf raw) sec
        (jsEntries (systemsSrcOf raw)) ⟨[], [], []⟩).normalized := by
    rw [hout]
    split
    · exact jsField_result_systems _ _
    · simp only [jsField, objAssign_single]
      rw [getField?_objSet_ne _ _ _ _
        (by decide : ("systems" : String) ≠ "_normalizationErrors")]
      rw [getField?_objSet_self]
      rfl
  refine ⟨?_, ?_, ?_⟩
  · intro p hp hsome
    rw [hsys]
    rw [hasOwnField_obj_false]
    intro hmem
    rw [processSystems_mem_keys] at hmem
    rcases hmem with h | ⟨q, hq, hqk, hqn⟩
    · simp at h
    · obtain ⟨id, sysv⟩ := p
      obtain ⟨qid, qv⟩ := q
      cases hqk
      have : qv = sysv := nodup_keys_eq _ hnd hq hp
      subst this
      rw [hqn] at hsome
      simp at hsome
  · intro p hp hnone
    rw [hsys]
    rw [hasOwnField_obj]
    rw [processSystems_mem_keys]
    exact Or.inr ⟨p, hp, rfl, hnone⟩
  · intro hne
    rw [herr] at hout
    have hfalse : (errList oracle raw).isEmpty = false := by
      cases hl : errList oracle raw
      · exact absurd hl hne
      · rfl
    rw [hfalse] at hout
    simp only [Bool.false_eq_true, if_false] at hout
    rw [hout]
    simp only [jsField]
    rw [getField?_objSet_self]
    rfl

/-- Witness for C7: under `failOnBad`, system `bad` of `twoSystemsRaw` is
dropped and recorded while `good` is still normalized and present. -/
theorem c7_witness :
    (normalizeDatasetSyncWith failOnBad twoSystemsRaw = .ok (twoOut, twoDiags)) ∧
    hasOwnField (jsField twoOut "systems") "bad" = false ∧
    hasOwnField (jsField twoOut "systems") "good" = true ∧
    jsField twoOut "_normalizationErrors" =
      .arr [.obj [("systemId", .str "bad"), ("error", .str "boom")]] ∧
    (∀ p ∈ jsEntries (systemsSrcOf twoSystemsRaw), (failOnBad p.1 p.2).isSome = true →
        hasOwnField (jsField twoOut "systems") p.1 = false) := by
  refine ⟨rfl, rfl, rfl, rfl, ?_⟩
  exact (c7_error_isolation failOnBad twoSystemsRaw twoOut twoDiags rfl rfl (by decide)).1

theorem jsField_obj (fs : List (String × Value)) (k : String) :
    jsField (.obj fs) k = (getField? fs k).getD .undefined := rfl

theorem truthy_undefined : truthy .undefined = false := rfl

theorem normalizeSystem_field_coords (px gx : Value) (sec : List (String × String))
    (id : String) (sysv : Value) (hpx : truthy px = true) :
    jsField (normalizeSystem px gx sec id sysv).1 "coords" =
      resolveTruthy (jsField (jsOr sysv (.obj [])) "coords") (jsField px id) := by
  simp only [normalizeSystem, objAssign, List.foldl, jsField_obj]
  rw [getField?_objSet_ne _ _ _ _ (by decide : ("coords" : String) ≠ "sector")]
  rw [getField?_objSet_ne _ _ _ _ (by decide : ("coords" : String) ≠ "grid")]
  rw [getField?_objSet_self]
  simp only [Option.getD_some]
  unfold resolveTruthy
  by_cases h1 : truthy (jsField (jsOr sysv (.obj [])) "coords") <;>
    by_cases h2 : truthy (jsField px id) <;>
    simp [h1, h2, hpx]

theorem normalizeSystem_field_grid (px gx : Value) (sec : List (String × String))
    (id : String) (sysv : Value) (hgx : truthy gx = true) :
    jsField (normalizeSystem px gx sec id sysv).1 "grid" =
      resolveTruthy (jsField (jsOr sysv (.obj [])) "grid") (jsField gx id) := by
  simp only [normalizeSystem, objAssign, List.foldl, jsField_obj]
  rw [getField?_objSet_ne _ _ _ _ (by decide : ("grid" : String) ≠ "sector")]
  rw [getField?_objSet_self]
  simp only [Option.getD_some]
  unfold resolveTruthy
  by_cases h1 : truthy (jsField (jsOr sysv (.obj [])) "grid") <;>
    by_cases h2 : truthy (jsField gx id) <;>
    simp [h1, h2, hgx]

theorem normalizeSystem_field_sector (px gx : Value) (sec : List (String × String))
    (id : String) (sysv : Value) :
    jsField (normalizeSystem px gx sec id sysv).1 "sector" =
      resolveTruthy (jsField (jsOr sysv (.obj [])) "sector") (sectorIndexValue sec id) := by
  simp only [normalizeSystem, objAssign, List.foldl, jsField_obj]
  rw [getField?_objSet_self]
  simp only [Option.getD_some]
  unfold resolveTruthy
  by_cases h1 : truthy (jsField (jsOr sysv (.obj [])) "sector") <;>
    by_cases h2 : truthy (sectorIndexValue sec id) <;>
    simp [h1, h2]

theorem normalizeSystem_hasOwn (px gx : Value) (sec : List (String × String))
    (id : String) (sysv : Value) :
    hasOwnField (normalizeSystem px gx sec id sysv).1 "coords" = true ∧
    hasOwnField (normalizeSystem px gx sec id sysv).1 "grid" = true ∧
    hasOwnField (normalizeSystem px gx sec id sysv).1 "sector" = true := by
  simp only [normalizeSystem, objAssign, List.foldl]
  refine ⟨?_, ?_, ?_⟩ <;> rw [hasOwnField_obj] <;>
    simp only [mem_keys_objSet] <;> simp

theorem syncOut_getSystem (raw : Value) (hobj : isObjectLike raw = true)
    (out : Value) (diags : List String)
    (hok : normalizeDatasetSync raw = .ok (out, diags))
    (sec : List (String × String))
    (hsec : buildSectorBySystem (jsEntries (sectorsSrcOf raw)) = .ok sec)
    (id : String) (sysv : Value)
    (hmem : (id, sysv) ∈ jsEntries (systemsSrcOf raw))
    (hnd : ((jsEntries (systemsSrcOf raw)).map Prod.fst).Nodup) :
    jsField (jsField out "systems") id =
      (normalizeSystem (pixelsSrcOf raw) (gridSrcOf raw) sec id sysv).1 := by
  rw [normalizeDatasetSync] at hok
  obtain ⟨sec2, hsec2, hout⟩ := syncWith_ok_inv noThrow raw out diags hobj hok
  rw [hsec2] at hsec
  cases hsec
  have herr : (processSystems noThrow (pixelsSrcOf raw) (gridSrcOf raw) sec
      (jsEntries (systemsSrcOf raw)) ⟨[], [], []⟩).errors = [] := by
    rw [processSystems_errors]
    simp [noThrow]
  rw [herr] at hout
  simp only [List.isEmpty_nil, if_true] at hout
  subst hout
  rw [jsField_result_systems, jsField_obj]
  rw [processSystems_getField_mem noThrow _ _ _ _ _ _ _ hnd hmem rfl]
  rfl

/-- C3 (counterexample): own-field resolution is not presence-first.  In
`ownEmptySectorRaw` the system's own record has `sector` present with the
(falsy) value `""`, the side table assigns sector `core`, and the normalized
output carries `core` - the present own value is not used, refuting the
claim's universal presence-first rule. -/
theorem c3_counterexample :
    normalizeDatasetSync ownEmptySectorRaw = .ok (ownEmptySectorOut, []) ∧
    jsField (jsField (jsField ownEmptySectorRaw "systems") "x") "sector" = .str "" ∧
    jsField (jsField (jsField ownEmptySectorOut "systems") "x") "sector" = .str "core" :=
  ⟨rfl, rfl, rfl⟩

/-- C3 (amended): each of coords, grid and sector is resolved truthy-first,
not presence-first: the own value is used when truthy; otherwise the
side-table value (`pixelsSrc[id]`, `gridSrc[id]`, the sector reverse index)
is used when truthy; otherwise the falsy own value (usually `undefined`)
remains.  In particular, with own `coords = [1,1]` (truthy) and
`system_pixels[id] = [9,9]`, the base record wins. -/
theorem c3_truthy_first (raw : Value) (hobj : isObjectLike raw = true)
    (out : Value) (diags : List String)
    (hok : normalizeDatasetSync raw = .ok (out, diags))
    (sec : List (String × String))
    (hsec : buildSectorBySystem (jsEntries (sectorsSrcOf raw)) = .ok sec)
    (id : String) (sysv : Value)
    (hmem : (id, sysv) ∈ jsEntries (systemsSrcOf raw))
    (hnd : ((jsEntries (systemsSrcOf raw)).map Prod.fst).Nodup) :
    jsField (jsField (jsField out "systems") id) "coords" =
      resolveTruthy (jsField (jsOr sysv (.obj [])) "coords")
        (jsField (pixelsSrcOf raw) id) ∧
    jsField (jsField (jsField out "systems") id) "grid" =
      resolveTruthy (jsField (jsOr sysv (.obj [])) "grid")
        (jsField (gridSrcOf raw) id) ∧
    jsField (jsField (jsField out "systems") id) "sector" =
      resolveTruthy (jsField (jsOr sysv (.obj [])) "sector")
        (sectorIndexValue sec id) := by
  rw [syncOut_getSystem raw hobj out diags hok sec hsec id sysv hmem hnd]
  exact ⟨normalizeSystem_field_coords _ _ _ _ _ (truthy_pixelsSrcOf raw),
    normalizeSystem_field_grid _ _ _ _ _ (truthy_gridSrcOf raw),
    normalizeSystem_field_sector _ _ _ _ _⟩

/-- Witness for C3 (amended) on the spec example: own `[1,1]` beats
`system_pixels` `[9,9]`. -/
theorem c3_witness :
    normalizeDatasetSync baseWinsRaw = .ok (baseWinsOut, baseWinsDiags) ∧
    (jsField (jsField (jsField baseWinsOut "systems") "sol") "coords" =
      resolveTruthy
        (jsField (jsOr (.obj [("name", .str "Sol"), ("coords", .arr [.num 1, .num 1])])
          (.obj [])) "coords")
        (jsField (pixelsSrcOf baseWinsRaw) "sol")) ∧
    jsField (jsField (jsField baseWinsOut "systems") "sol") "coords" =
      .arr [.num 1, .num 1] := by
  refine ⟨rfl, ?_, rfl⟩
  exact (c3_truthy_first baseWinsRaw rfl baseWinsOut baseWinsDiags rfl [] rfl "sol"
    (.obj [("name", .str "Sol"), ("coords", .arr [.num 1, .num 1])])
    (List.Mem.head _) (by decide)).1

/-- C4 (counterexample): an unresolvable field is not left absent.  System
`x` of `bareSystemRaw` has no grid anywhere, yet the normalized record has
the key `grid` present with value `undefined` (`Object.assign` always writes
the three keys), while the input record had no such key. -/
theorem c4_counterexample :
    normalizeDatasetSync bareSystemRaw = .ok (bareOut, []) ∧
    hasOwnField (jsField (jsField bareSystemRaw "systems") "x") "grid" = false ∧
    hasOwnField (jsField (jsField bareOut "systems") "x") "grid" = true ∧
    jsField (jsField (jsField bareOut "systems") "x") "grid" = .undefined :=
  ⟨rfl, rfl, rfl, rfl⟩

/-- C4 (amended): the keys `coords`, `grid` and `sector` are always present
on a normalized system; a field that can be resolved from neither the own
record (own value `undefined`) nor the matching side table (side value falsy)
is present with the value `undefined` - never defaulted to anything else,
and distinguishable from a meaningful value only by its `undefined` content,
not by key absence. -/
theorem c4_present_undefined (raw : Value) (hobj : isObjectLike raw = true)
    (out : Value) (diags : List String)
    (hok : normalizeDatasetSync raw = .ok (out, diags))
    (sec : List (String × String))
    (hsec : buildSectorBySystem (jsEntries (sectorsSrcOf raw)) = .ok sec)
    (id : String) (sysv : Value)
    (hmem : (id, sysv) ∈ jsEntries (systemsSrcOf raw))
    (hnd : ((jsEntries (systemsSrcOf raw)).map Prod.fst).Nodup) :
    (hasOwnField (jsField (jsField out "systems") id) "coords" = true ∧
     hasOwnField (jsField (jsField out "systems") id) "grid" = true ∧
     hasOwnField (jsField (jsField out "systems") id) "sector" = true) ∧
    ((jsField (jsOr sysv (.obj [])) "coords" = .undefined →
      truthy (jsField (pixelsSrcOf raw) id) = false →
      jsField (jsField (jsField out "systems") id) "coords" = .undefined) ∧
     (jsField (jsOr sysv (.obj [])) "grid" = .undefined →
      truthy (jsField (gridSrcOf raw) id) = false →
      jsField (jsField (jsField out "systems") id) "grid" = .undefined) ∧
     (jsField (jsOr sysv (.obj [])) "sector" = .undefined →
      truthy (sectorIndexValue sec id) = false →
      jsField (jsField (jsField out "systems") id) "sector" = .undefined)) := by
  rw [syncOut_getSystem raw hobj out diags hok sec hsec id sysv hmem hnd]
  refine ⟨normalizeSystem_hasOwn _ _ _ _ _, ?_, ?_, ?_⟩
  · intro hown hside
    rw [normalizeSystem_field_coords _ _ _ _ _ (truthy_pixelsSrcOf raw), hown]
    simp [resolveTruthy, truthy_undefined, hside]
  · intro hown hside
    rw [normalizeSystem_field_grid _ _ _ _ _ (truthy_gridSrcOf raw), hown]
    simp [resolveTruthy, truthy_undefined, hside]
  · intro hown hside
    rw [normalizeSystem_field_sector, hown]
    simp [resolveTruthy, truthy_undefined, hside]

/-- Witness for C4 (amended) on `bareSystemRaw`, whose only system resolves
none of the three fields. -/
theorem c4_witness :
    ((hasOwnField (jsField (jsField bareOut "systems") "x") "coords" = true ∧
      hasOwnField (jsField (jsField bareOut "systems") "x") "grid" = true ∧
      hasOwnField (jsField (jsField bareOut "systems") "x") "sector" = true) ∧
     ((jsField (jsOr (.obj [("name", .str "X")]) (.obj [])) "coords" = .undefined →
       truthy (jsField (pixelsSrcOf bareSystemRaw) "x") = false →
       jsField (jsField (jsField bareOut "systems") "x") "coords" = .undefined) ∧
      (jsField (jsOr (.obj [("name", .str "X")]) (.obj [])) "grid" = .undefined →
       truthy (jsField (gridSrcOf bareSystemRaw) "x") = false →
       jsField (jsField (jsField bareOut "systems") "x") "grid" = .undefined) ∧
      (jsField (jsOr (.obj [("name", .str "X")]) (.obj [])) "sector" = .undefined →
       truthy (sectorIndexValue [] "x") = false →
       jsField (jsField (jsField bareOut "systems") "x") "sector" = .undefined))) ∧
    jsField (jsField (jsField bareOut "systems") "x") "grid" = .undefined := by
  refine ⟨?_, rfl⟩
  exact c4_present_undefined bareSystemRaw rfl bareOut [] rfl [] rfl "x"
    (.obj [("name", .str "X")]) (List.Mem.head _) (by decide)

theorem find?_append_or {α : Type} (p : α → Bool) (l1 l2 : List α) :
    (l1 ++ l2).find? p = ((l1.find? p).orElse (fun _ => l2.find? p)) := by
  induction l1 with
  | nil => simp
  | cons a rest ih =>
    by_cases h : p a
    · simp [List.find?_cons_of_pos _ h]
    · simp [List.find?_cons_of_neg _ h, ih]

theorem buildSectorBySystemAux_get (id : String) :
    ∀ (entries : List (String × Value)) (m idx : List (String × String)),
      buildSectorBySystemAux entries m = .ok idx →
      strMapGet idx id =
        (match entries.reverse.find? (fun p => sectorListContains p.2 id) with
         | some p => some p.1
         | none => strMapGet m id) := by
  intro entries
  induction entries with
  | nil =>
    intro m idx hok
    cases hok
    simp
  | cons q rest ih =>
    intro m idx hok
    obtain ⟨name, lv⟩ := q
    simp only [List.reverse_cons, find?_append_or]
    cases hlv : jsOr lv (.arr []) with
    | arr sysIds =>
      simp only [buildSectorBySystemAux, hlv] at hok
      rw [ih _ _ hok]
      cases hfind : rest.reverse.find? (fun p => sectorListContains p.2 id) with
      | some p => simp [hfind]
      | none =>
        simp only [hfind, Option.orElse]
        rw [strMapGet_fold_set]
        have hcontains : sectorListContains lv id = sysIds.any (fun e => jsToPropKey e = id) := by
          rw [sectorListContains, hlv]
        by_cases hany : sysIds.any (fun e => jsToPropKey e = id)
        · simp [hany, List.find?, hcontains]
        · simp [hany, List.find?, hcontains]
    | undefined =>
      simp only [buildSectorBySystemAux, hlv] at hok
      exact Except.noConfusion hok
    | null =>
      simp only [buildSectorBySystemAux, hlv] at hok
      exact Except.noConfusion hok
    | bool b =>
      simp only [buildSectorBySystemAux, hlv] at hok
      exact Except.noConfusion hok
    | num n =>
      simp only [buildSectorBySystemAux, hlv] at hok
      exact Except.noConfusion hok
    | str st =>
      simp only [buildSectorBySystemAux, hlv] at hok
      exact Except.noConfusion hok
    | obj fs =>
      simp only [buildSectorBySystemAux, hlv] at hok
      exact Except.noConfusion hok

/-- C10: the sector reverse index is built in iteration order with each
occurrence of a system id overwriting the previous one (last-seen-wins): the
index maps `id` to the name of the last sectors entry, in entry order, whose
list contains `id` (after the `|| []` default and property-key coercion),
and to nothing when no list contains it. -/
theorem c10_last_wins (entries : List (String × Value)) (idx : List (String × String))
    (hok : buildSectorBySystem entries = .ok idx) (id : String) :
    strMapGet idx id =
      (entries.reverse.find? (fun p => sectorListContains p.2 id)).map Prod.fst := by
  rw [buildSectorBySystem] at hok
  rw [buildSectorBySystemAux_get id entries [] idx hok]
  cases entries.reverse.find? (fun p => sectorListContains p.2 id) <;> simp [strMapGet]

/-- Witness for C10: id `x` appears in the lists of both `alpha` and `beta`;
the reverse index assigns it the later sector, `beta`. -/
theorem c10_witness :
    buildSectorBySystem dupSectors = .ok dupSectorsIdx ∧
    strMapGet dupSectorsIdx "x" =
      (dupSectors.reverse.find? (fun p => sectorListContains p.2 "x")).map Prod.fst ∧
    strMapGet dupSectorsIdx "x" = some "beta" :=
  ⟨rfl, c10_last_wins dupSectors dupSectorsIdx rfl "x", rfl⟩

/-!
## Heap model lemmas (for the frame property C9)
-/

theorem getCell_eq_getElem (h : Heap) (b : Nat) :
    getCell h b = (h[b]?).getD (.objc []) := by
  simp [getCell, List.getD_eq_getElem?_getD]

theorem getCell_append (h ext : Heap) (b : Nat) (hb : b < h.length) :
    getCell (h ++ ext) b = getCell h b := by
  rw [getCell_eq_getElem, getCell_eq_getElem, List.getElem?_append, if_pos hb]

theorem getCell_append_self (h : Heap) (c : HCell) :
    getCell (h ++ [c]) h.length = c := by
  rw [getCell_eq_getElem, List.getElem?_append, if_neg (by omega)]
  simp

theorem length_hSetField (h : Heap) (a : Nat) (k : String) (v : HVal) :
    (hSetField h a k v).length = h.length := by
  simp [hSetField]

theorem getCell_hSetField_ne (h : Heap) (a : Nat) (k : String) (v : HVal)
    (b : Nat) (hne : b ≠ a) :
    getCell (hSetField h a k v) b = getCell h b := by
  rw [getCell_eq_getElem, getCell_eq_getElem, hSetField,
    List.getElem?_set_ne (fun he => hne he.symm)]

theorem getCell_hSetField_self (h : Heap) (a : Nat) (k : String) (v : HVal)
    (ha : a < h.length) :
    getCell (hSetField h a k v) a = cellSet (getCell h a) k v := by
  rw [getCell_eq_getElem, hSetField, List.getElem?_set_self ha]
  rfl

theorem hFieldOf_hobjSet_self (fs : List (String × HVal)) (k : String) (v : HVal) :
    hFieldOf (hobjSet fs k v) k = v := by
  induction fs with
  | nil => simp [hobjSet, hFieldOf]
  | cons p rest ih =>
    obtain ⟨a, b⟩ := p
    by_cases hk : a = k
    · simp [hobjSet, hFieldOf, hk]
    · simp [hobjSet, hFieldOf, hk, ih]

theorem mem_hobjSet (fs : List (String × HVal)) (k : String) (v : HVal) :
    ∀ p ∈ hobjSet fs k v, p.2 = v ∨ p ∈ fs := by
  induction fs with
  | nil =>
    intro p hp
    simp [hobjSet] at hp
    subst hp
    exact Or.inl rfl
  | cons q rest ih =>
    intro p hp
    obtain ⟨a, b⟩ := q
    by_cases hk : a = k
    · simp only [hobjSet, if_pos hk] at hp
      rcases List.mem_cons.mp hp with he | hm
      · subst he
        exact Or.inl rfl
      · exact Or.inr (List.mem_cons_of_mem _ hm)
    · simp only [hobjSet, if_neg hk] at hp
      rcases List.mem_cons.mp hp with he | hm
      · subst he
        exact Or.inr (List.mem_cons_self _ _)
      · rcases ih p hm with hv | hmem
        · exact Or.inl hv
        · exact Or.inr (List.mem_cons_of_mem _ hmem)

theorem fold_hSetField_frame (secAddr : Nat) (name : String) :
    ∀ (sysIds : List HVal) (h : Heap),
      (sysIds.foldl
        (fun hh sysId => hSetField hh secAddr (hPropKey sysId) (.str name)) h).length
          = h.length ∧
      ∀ b, b ≠ secAddr →
        getCell (sysIds.foldl
          (fun hh sysId => hSetField hh secAddr (hPropKey sysId) (.str name)) h) b =
        getCell h b := by
  intro sysIds
  induction sysIds with
  | nil => exact fun h => ⟨rfl, fun _ _ => rfl⟩
  | cons e rest ih =>
    intro h
    simp only [List.foldl_cons]
    refine ⟨?_, ?_⟩
    · rw [(ih _).1, length_hSetField]
    · intro b hb
      rw [(ih _).2 b hb, getCell_hSetField_ne _ _ _ _ _ hb]

theorem buildSectorIndexHeap_cons (secAddr : Nat) (name : String) (lv : HVal)
    (rest : List (String × HVal)) (h : Heap) :
    buildSectorIndexHeap secAddr ((name, lv) :: rest) h =
      (if hTruthy lv then
        match lv with
        | .ref a =>
          match getCell h a with
          | .arrc sysIds =>
            buildSectorIndexHeap secAddr rest
              (sysIds.foldl
                (fun hh sysId => hSetField hh secAddr (hPropKey sysId) (.str name)) h)
          | .objc _ => .error "TypeError: systemList.forEach is not a function"
        | _ => .error "TypeError: systemList.forEach is not a function"
      else
        buildSectorIndexHeap secAddr rest h) := by
  cases lv <;> rfl

theorem bsi_frame (secAddr : Nat) :
    ∀ (entries : List (String × HVal)) (h hB : Heap),
      buildSectorIndexHeap secAddr entries h = .ok hB →
      hB.length = h.length ∧ ∀ b, b ≠ secAddr → getCell hB b = getCell h b := by
  intro entries
  induction entries with
  | nil =>
    intro h hB hok
    cases hok
    exact ⟨rfl, fun _ _ => rfl⟩
  | cons q rest ih =>
    intro h hB hok
    obtain ⟨name, lv⟩ := q
    rw [buildSectorIndexHeap_cons] at hok
    by_cases ht : hTruthy lv
    · rw [if_pos ht] at hok
      cases lv with
      | ref a =>
        simp only [] at hok
        cases hcell : getCell h a with
        | objc fs =>
          simp only [hcell] at hok
          exact Except.noConfusion hok
        | arrc sysIds =>
          simp only [hcell] at hok
          obtain ⟨hlen, hframe⟩ := ih _ _ hok
          refine ⟨?_, ?_⟩
          · rw [hlen, (fold_hSetField_frame secAddr name sysIds h).1]
          · intro b hb
            rw [hframe b hb, (fold_hSetField_frame secAddr name sysIds h).2 b hb]
      | undefined => simp [hTruthy] at ht
      | null => simp [hTruthy] at ht
      | bool b =>
        simp only [] at hok
        exact Except.noConfusion hok
      | num n =>
        simp only [] at hok
        exact Except.noConfusion hok
      | str s2 =>
        simp only [] at hok
        exact Except.noConfusion hok
    · rw [if_neg ht] at hok
      exact ih _ _ hok

theorem psh_frame (secAddr nsAddr : Nat) (px gx : HVal) :
    ∀ (entries : List (String × HVal)) (h : Heap),
      h.length ≤ (processSystemsHeap secAddr nsAddr px gx entries h).length ∧
      ∀ b, b < h.length → b ≠ nsAddr →
        getCell (processSystemsHeap secAddr nsAddr px gx entries h) b = getCell h b := by
  intro entries
  induction entries with
  | nil => exact fun h => ⟨Nat.le_refl _, fun _ _ _ => rfl⟩
  | cons q rest ih =>
    intro h
    obtain ⟨id, sysv⟩ := q
    simp only [processSystemsHeap, hAlloc]
    refine ⟨?_, ?_⟩
    · refine Nat.le_trans ?_ (ih _).1
      rw [length_hSetField, List.length_append]
      omega
    · intro b hb hbn
      rw [(ih _).2 b ?_ hbn]
      · rw [getCell_hSetField_ne _ _ _ _ _ hbn,
          getCell_append _ _ _ hb]
      · rw [length_hSetField, List.length_append]
        omega

theorem psh_nsGood (secAddr nsAddr : Nat) (px gx : HVal) (L : Nat) :
    ∀ (entries : List (String × HVal)) (h : Heap),
      nsAddr < h.length → L ≤ h.length →
      (∀ kv ∈ cellEntries (getCell h nsAddr), ∃ q, kv.2 = HVal.ref q ∧ L ≤ q) →
      (∀ kv ∈ cellEntries
          (getCell (processSystemsHeap secAddr nsAddr px gx entries h) nsAddr),
        ∃ q, kv.2 = HVal.ref q ∧ L ≤ q) := by
  intro entries
  induction entries with
  | nil => exact fun h _ _ hgood => hgood
  | cons q rest ih =>
    intro h hns hL hgood
    obtain ⟨id, sysv⟩ := q
    simp only [processSystemsHeap, hAlloc]
    refine ih _ ?_ ?_ ?_
    · rw [length_hSetField, List.length_append]
      simp
      omega
    · rw [length_hSetField, List.length_append]
      simp
      omega
    · intro kv hkv
      rw [getCell_hSetField_self _ _ _ _
        (by rw [List.length_append]; simp; omega)] at hkv
      rw [getCell_append _ _ _ hns] at hkv
      cases hcell : getCell h nsAddr with
      | arrc es =>
        rw [hcell] at hkv
        exact hgood kv (by rw [hcell]; exact hkv)
      | objc fs =>
        rw [hcell] at hkv
        simp only [cellSet, cellEntries] at hkv
        rcases mem_hobjSet _ _ _ kv hkv with hv | hmem
        · exact ⟨h.length, hv, hL⟩
        · exact hgood kv (by rw [hcell]; exact hmem)

theorem normalizeSyncHeap_ref (h : Heap) (a : Nat) :
    normalizeSyncHeap h (.ref a) =
      (let rawEntries := cellEntries (getCell h a)
       let pixelsV :=
         let p := hFieldOf rawEntries "system_pixels"
         if hTruthy p then p else hFieldOf rawEntries "endpoint_pixels"
       let gridV := hFieldOf rawEntries "system_grid"
       let sectorsV := hFieldOf rawEntries "sectors"
       let systemsV := hFieldOf rawEntries "systems"
       let h1sec := hAlloc h (.objc [])
       let sectorsEntries :=
         if hTruthy sectorsV then hEntriesOfVal h1sec.1 sectorsV else []
       match buildSectorIndexHeap h1sec.2 sectorsEntries h1sec.1 with
       | .error e => .error e
       | .ok h2 =>
         let h3ns := hAlloc h2 (.objc [])
         let sysEntries :=
           if hTruthy systemsV then hEntriesOfVal h3ns.1 systemsV else []
         let h4 := processSystemsHeap h1sec.2 h3ns.2 pixelsV gridV sysEntries h3ns.1
         let resFields := hobjAssign (cellEntries (getCell h4 a))
           [("systems", .ref h3ns.2)]
         let h5ra := hAlloc h4 (.objc resFields)
         .ok (h5ra.1, .ref h5ra.2)) := rfl

theorem heap_frame_core (h hB : Heap) (a : Nat) (pV gV : HVal)
    (secE sysE : List (String × HVal))
    (hbsi : buildSectorIndexHeap h.length secE (h ++ [.objc []]) = .ok hB) :
    (∀ b, b < h.length →
      getCell (processSystemsHeap h.length hB.length pV gV sysE (hB ++ [HCell.objc []]) ++
        [HCell.objc (hobjAssign
          (cellEntries (getCell
            (processSystemsHeap h.length hB.length pV gV sysE (hB ++ [HCell.objc []])) a))
          [("systems", HVal.ref hB.length)])]) b = getCell h b) ∧
    (∃ r, HVal.ref
        (processSystemsHeap h.length hB.length pV gV sysE (hB ++ [HCell.objc []])).length =
        HVal.ref r ∧ h.length ≤ r) ∧
    (∃ ns, hGetField
        (processSystemsHeap h.length hB.length pV gV sysE (hB ++ [HCell.objc []]) ++
          [HCell.objc (hobjAssign
            (cellEntries (getCell
              (processSystemsHeap h.length hB.length pV gV sysE (hB ++ [HCell.objc []])) a))
            [("systems", HVal.ref hB.length)])])
        (HVal.ref
          (processSystemsHeap h.length hB.length pV gV sysE (hB ++ [HCell.objc []])).length)
        "systems" = HVal.ref ns ∧ h.length ≤ ns ∧
      ∀ kv ∈ cellEntries (getCell
        (processSystemsHeap h.length hB.length pV gV sysE (hB ++ [HCell.objc []]) ++
          [HCell.objc (hobjAssign
            (cellEntries (getCell
              (processSystemsHeap h.length hB.length pV gV sysE (hB ++ [HCell.objc []])) a))
            [("systems", HVal.ref hB.length)])]) ns),
        ∃ q, kv.2 = HVal.ref q ∧ h.length ≤ q) := by
  have hlenB : hB.length = h.length + 1 := by
    have h1 := (bsi_frame _ _ _ _ hbsi).1
    simpa using h1
  have hframeB := (bsi_frame _ _ _ _ hbsi).2
  set h4 := processSystemsHeap h.length hB.length pV gV sysE (hB ++ [HCell.objc []])
    with hh4
  set resFields := hobjAssign (cellEntries (getCell h4 a))
    [("systems", HVal.ref hB.length)] with hrf
  have hpshA := (psh_frame h.length hB.length pV gV sysE (hB ++ [HCell.objc []])).1
  have hpshB := (psh_frame h.length hB.length pV gV sysE (hB ++ [HCell.objc []])).2
  have h3len : (hB ++ [HCell.objc []]).length = h.length + 2 := by
    simp [hlenB]
  have h4len : h.length + 2 ≤ h4.length := by
    rw [hh4]
    rw [h3len] at hpshA
    exact hpshA
  refine ⟨?_, ?_, ?_⟩
  · intro b hb
    rw [getCell_append _ _ _ (by omega)]
    rw [hh4, hpshB b (by omega) (by omega)]
    rw [getCell_append _ _ _ (by omega)]
    rw [hframeB b (by omega)]
    rw [getCell_append _ _ _ hb]
  · exact ⟨h4.length, rfl, by omega⟩
  · refine ⟨hB.length, ?_, by omega, ?_⟩
    · show hFieldOf (cellEntries (getCell (h4 ++ [HCell.objc resFields]) h4.length))
        "systems" = HVal.ref hB.length
      rw [getCell_append_self]
      show hFieldOf resFields "systems" = HVal.ref hB.length
      rw [hrf]
      show hFieldOf (hobjSet (cellEntries (getCell h4 a)) "systems"
        (HVal.ref hB.length)) "systems" = HVal.ref hB.length
      exact hFieldOf_hobjSet_self _ _ _
    · intro kv hkv
      rw [getCell_append _ _ _ (by omega)] at hkv
      refine psh_nsGood h.length hB.length pV gV h.length sysE
        (hB ++ [HCell.objc []]) (by omega) (by omega) ?_ kv hkv
      intro kv2 hkv2
      rw [getCell_append_self] at hkv2
      simp [cellEntries] at hkv2

/-- C9: the heap model of `normalizeDatasetSync` on an object input never
mutates any pre-existing cell - in particular the raw dataset and every
record reachable from it are unchanged - and the result is newly allocated:
the returned reference, the `systems` map object it carries, and every
per-system object inside that map are all fresh addresses (at or beyond the
input heap's size), built by copying. -/
theorem c9_frame (h : Heap) (a : Nat) (hOut : Heap) (res : HVal)
    (hok : normalizeSyncHeap h (.ref a) = .ok (hOut, res)) :
    (∀ b, b < h.length → getCell hOut b = getCell h b) ∧
    (∃ r, res = HVal.ref r ∧ h.length ≤ r) ∧
    (∃ ns, hGetField hOut res "systems" = HVal.ref ns ∧ h.length ≤ ns ∧
      ∀ kv ∈ cellEntries (getCell hOut ns),
        ∃ q, kv.2 = HVal.ref q ∧ h.length ≤ q) := by
  rw [normalizeSyncHeap_ref] at hok
  simp only [hAlloc] at hok
  split at hok
  · exact Except.noConfusion hok
  · rename_i hB hbsi
    cases hok
    exact heap_frame_core h hB a _ _ _ _ hbsi

/-- Witness for C9 on `frameExampleHeap`: the three input cells survive
unchanged and the result objects are fresh. -/
theorem c9_witness :
    (∀ b, b < frameExampleHeap.length →
      getCell frameExampleOut b = getCell frameExampleHeap b) ∧
    (∃ r, frameExampleRes = HVal.ref r ∧ frameExampleHeap.length ≤ r) ∧
    (∃ ns, hGetField frameExampleOut frameExampleRes "systems" = HVal.ref ns ∧
      frameExampleHeap.length ≤ ns ∧
      ∀ kv ∈ cellEntries (getCell frameExampleOut ns),
        ∃ q, kv.2 = HVal.ref q ∧ frameExampleHeap.length ≤ q) :=
  c9_frame frameExampleHeap 0 frameExampleOut frameExampleRes rfl

/-- C5: a second `normalizeDataset` call on structurally-equal serializable
input is served from the cache: it returns exactly the stored result of the
first call (the model's counterpart of returning the identical object
instance - the cache entry itself is returned, nothing is recomputed) and
leaves the cache unchanged, hence the two results are deep-equal. -/
theorem c5_cached_instance (raw raw2 : Value) (c0 c1 : Cache) (r1 : Value)
    (hser : (generateCacheKey raw).isSome = true)
    (heq : generateCacheKey raw2 = generateCacheKey raw)
    (h1 : normalizeDataset raw c0 = .ok (r1, c1)) :
    normalizeDataset raw2 c1 = .ok (r1, c1) := by
  obtain ⟨k, hk⟩ := Option.isSome_iff_exists.mp hser
  simp only [normalizeDataset, hk] at h1
  simp only [normalizeDataset, heq, hk]
  cases hc : cacheGet c0 k with
  | some cached =>
    simp only [hc, Except.ok.injEq, Prod.mk.injEq] at h1
    obtain ⟨hv, hcc⟩ := h1
    subst hv
    subst hcc
    simp [hc]
  | none =>
    simp only [hc] at h1
    cases hs : normalizeDatasetSync raw with
    | ok rd =>
      simp only [hs, Except.ok.injEq, Prod.mk.injEq] at h1
      obtain ⟨hv, hcc⟩ := h1
      subst hv
      subst hcc
      simp [cacheGet_cacheSet_self]
    | error e =>
      simp only [hs] at h1
      exact Except.noConfusion h1

/-- Witness for C5: the second call on `baseWinsRaw` returns the cached
result of the first. -/
theorem c5_witness :
    (generateCacheKey baseWinsRaw).isSome = true ∧
    normalizeDataset baseWinsRaw cacheRunCache = .ok (cacheRunVal, cacheRunCache) :=
  ⟨rfl, c5_cached_instance baseWinsRaw baseWinsRaw [] cacheRunCache cacheRunVal rfl rfl rfl⟩

set_option maxRecDepth 40000 in
/-- C6 (code bug): `generateCacheKey` is the full `JSON.stringify` of the
input at every size - there is no size threshold and no structural
fingerprint.  `bigRawA` and `bigRawB` are two 100-system datasets (at the
documented threshold) agreeing on the system count, the entire id list in
iteration order (hence any first-10 sample), and the populated pixel-source
field, yet their cache keys differ because a record beyond the sample
differs - under the claimed fingerprint they would share one key. -/
theorem c6_fullkey_not_fingerprint :
    (jsEntries (jsField bigRawA "systems")).length = 100 ∧
    (jsEntries (jsField bigRawA "systems")).map Prod.fst =
      (jsEntries (jsField bigRawB "systems")).map Prod.fst ∧
    jsField bigRawA "system_pixels" = jsField bigRawB "system_pixels" ∧
    hasOwnField bigRawA "endpoint_pixels" = false ∧
    hasOwnField bigRawB "endpoint_pixels" = false ∧
    generateCacheKey bigRawA = jsStringify bigRawA ∧
    generateCacheKey bigRawA ≠ generateCacheKey bigRawB := by
  refine ⟨by decide, by decide, rfl, rfl, rfl, rfl, by decide⟩

/-- C8: in an environment without `Worker` support, the async entry point
computes exactly what the synchronous entry point computes - same
normalization result, same cache key derivation, same cache insertion -
for every input and every starting cache. -/
theorem c8_async_fallback_equiv (raw : Value) (cache : Cache) :
    normalizeDatasetAsync raw cache = normalizeDataset raw cache := rfl

end DM4
